import Mathlib

/-!
# Verification of the gistapi search pipeline

A shallow embedding of `gistapi/gistapi.py`: a Flask service that searches a
user's GitHub gists for a regular-expression pattern.  The embedding models

* the Python `re` library (a core subset: literals, `.`, `|`, `*`, `+`, `?`,
  grouping, escapes) as a derivative-based matcher with a proved language
  semantics; `regex.match(line)` is match-at-start-of-line (some prefix of the
  line is in the pattern's language);
* the remote HTTP world (`requests`) as an oracle `Remote` giving each
  paste-list page request a status code and a raw body — either decodable
  JSON or not, since `response.json()` raises on the latter — and each
  raw-content fetch either a list of lines or a network failure;
* `gists_for_user` (a Python generator) as the list of pages it yields plus an
  optional terminal classified error;
* `_gist_matches` / `_fetch_file_lines` as a scan over a gist's files that also
  records, for verification, which raw URLs were requested and which lines
  were tested;
* the `search` view as a function from the request JSON body to an `Outcome`:
  an HTTP response (status code plus JSON-object body), or `unhandled` when an
  exception escapes the view function (an invalid pattern at `re.compile`, a
  network failure while fetching file content, or a `JSONDecodeError` on an
  undecodable page body — none of these is caught by the view's `except`
  clauses).
-/

namespace Gistapi

/-! ## Regular expressions (model of the `re` library subset used) -/

/-- Regular-expression abstract syntax: the subset of Python `re` syntax
modelled here.  `fail` matches nothing, `eps` the empty string, `anyc` any
single character (`.`), `lit c` the character `c`; `alt`, `seq`, `star` are
alternation, concatenation and Kleene star. -/
inductive RE where
  | fail : RE
  | eps : RE
  | anyc : RE
  | lit : Char → RE
  | alt : RE → RE → RE
  | seq : RE → RE → RE
  | star : RE → RE
deriving DecidableEq

/-- Language of a regular expression, as an inductive acceptance predicate. -/
inductive Accepts : RE → List Char → Prop where
  | eps : Accepts .eps []
  | anyc (c : Char) : Accepts .anyc [c]
  | lit (c : Char) : Accepts (.lit c) [c]
  | altL {a b : RE} {s : List Char} : Accepts a s → Accepts (.alt a b) s
  | altR {a b : RE} {s : List Char} : Accepts b s → Accepts (.alt a b) s
  | seqI {a b : RE} {s t : List Char} :
      Accepts a s → Accepts b t → Accepts (.seq a b) (s ++ t)
  | starNil {a : RE} : Accepts (.star a) []
  | starCons {a : RE} {s t : List Char} :
      Accepts a s → Accepts (.star a) t → Accepts (.star a) (s ++ t)

/-- Does the expression accept the empty string? -/
def nullable : RE → Bool
  | .fail => false
  | .eps => true
  | .anyc => false
  | .lit _ => false
  | .alt a b => nullable a || nullable b
  | .seq a b => nullable a && nullable b
  | .star _ => true

/-- Brzozowski derivative with respect to one character. -/
def deriv : RE → Char → RE
  | .fail, _ => .fail
  | .eps, _ => .fail
  | .anyc, _ => .eps
  | .lit a, c => if a = c then .eps else .fail
  | .alt a b, c => .alt (deriv a c) (deriv b c)
  | .seq a b, c =>
      if nullable a then .alt (.seq (deriv a c) b) (deriv b c)
      else .seq (deriv a c) b
  | .star a, c => .seq (deriv a c) (.star a)

/-- Match-at-start: does some prefix of `s` (possibly empty, possibly all of
`s`) belong to the language?  This is the truthiness of Python's
`regex.match(s)`. -/
def reMatch : RE → List Char → Bool
  | r, [] => nullable r
  | r, c :: cs => nullable r || reMatch (deriv r c) cs

/-- Truthiness of `regex.match(line)` on a string. -/
def re_match (r : RE) (s : String) : Bool :=
  reMatch r s.data

/-! ## Pattern compilation (model of `re.compile` on the modelled subset)

The parser covers the core Python `re` syntax: literal characters, `.`,
alternation `|`, grouping `(...)`, the quantifiers `*`, `+`, `?` (each with an
optional lazy `?` suffix, which does not change the recognised language), and
backslash escapes of non-alphanumeric characters.  Constructs outside the
subset (character classes, anchors, counted repeats, alphanumeric escapes) are
treated as compile failures, as are the genuine Python `re` errors relevant
here: unbalanced parentheses, a dangling quantifier with nothing to repeat,
and a trailing backslash. -/

/-- Consume an optional lazy-quantifier marker `?`; laziness does not change
the language. -/
def dropLazy : List Char → List Char
  | '?' :: rest => rest
  | s => s

/-- Apply at most one postfix quantifier to a parsed atom. -/
def pRepeat (r : RE) : List Char → RE × List Char
  | '*' :: rest => (.star r, dropLazy rest)
  | '+' :: rest => (.seq r (.star r), dropLazy rest)
  | '?' :: rest => (.alt r .eps, dropLazy rest)
  | s => (r, s)

mutual

/-- Parse an alternation (`a|b|c`). -/
def pAlt : Nat → List Char → Option (RE × List Char)
  | 0, _ => none
  | Nat.succ f, s =>
    match pCat f s with
    | none => none
    | some (r, s1) =>
      match s1 with
      | '|' :: rest =>
        match pAlt f rest with
        | none => none
        | some (r2, s2) => some (.alt r r2, s2)
      | _ => some (r, s1)

/-- Parse a concatenation of quantified atoms (possibly empty). -/
def pCat : Nat → List Char → Option (RE × List Char)
  | 0, _ => none
  | Nat.succ f, s =>
    match s with
    | [] => some (.eps, [])
    | c :: _ =>
      if c = '|' ∨ c = ')' then some (.eps, s)
      else
        match pAtom f s with
        | none => none
        | some (r, s1) =>
          match pRepeat r s1 with
          | (r2, s2) =>
            match pCat f s2 with
            | none => none
            | some (r3, s3) => some (.seq r2 r3, s3)

/-- Parse one atom: a group, `.`, an escaped character, or a literal. -/
def pAtom : Nat → List Char → Option (RE × List Char)
  | 0, _ => none
  | Nat.succ f, s =>
    match s with
    | [] => none
    | '(' :: rest =>
      match pAlt f rest with
      | some (r, ')' :: s1) => some (r, s1)
      | _ => none
    | '.' :: rest => some (.anyc, rest)
    | '\\' :: c :: rest => if c.isAlphanum then none else some (.lit c, rest)
    | ['\\'] => none
    | c :: rest =>
      if c = '*' ∨ c = '+' ∨ c = '?' ∨ c = '(' ∨ c = ')' ∨ c = '|' ∨
         c = '[' ∨ c = ']' ∨ c = '\x7b' ∨ c = '\x7d' ∨ c = '^' ∨ c = '$'
      then none
      else some (.lit c, rest)

end

/-- Model of `re.compile(pat)`: `some` compiled expression, or `none` when the
pattern does not compile (Python raises `re.error`). -/
def re_compile (pat : String) : Option RE :=
  match pAlt (3 * pat.length + 9) pat.data with
  | some (r, []) => some r
  | _ => none

/-! ## JSON values and response parsing (model of `response.json()` plus the
pydantic schemas declared in the source) -/

/-- A parsed JSON value, as returned by `response.json()`. -/
inductive JVal where
  | null : JVal
  | bool : Bool → JVal
  | num : Int → JVal
  | str : String → JVal
  | arr : List JVal → JVal
  | obj : List (String × JVal) → JVal

/-- Python falsiness of a JSON value: the `if not data` check in
`gists_for_user`. -/
def jsonFalsy : JVal → Bool
  | .null => true
  | .bool b => !b
  | .num n => n == 0
  | .str s => s == ""
  | .arr xs => xs.isEmpty
  | .obj fs => fs.isEmpty

/-- `GistApiFileResponseSchema`: one file of a gist, keeping its raw-content
URL. -/
structure GistApiFileResponseSchema where
  raw_url : String
deriving DecidableEq

/-- `GistApiResponseSchema`: one gist, with its public URL and its files
mapping.  The mapping is modelled as an association list in the JSON object's
key order (Python dicts preserve insertion order, so this is also the
iteration order of `gist.files.values()`). -/
structure GistApiResponseSchema where
  html_url : String
  files : List (String × GistApiFileResponseSchema)
deriving DecidableEq

/-- First-occurrence key lookup in a JSON object. -/
def lookupField (k : String) : List (String × JVal) → Option JVal
  | [] => none
  | (k1, v) :: rest => if k1 = k then some v else lookupField k rest

/-- Pydantic validation of one file object: requires a string `raw_url`;
extra fields are ignored. -/
def parseFileSchema (v : JVal) : Option GistApiFileResponseSchema :=
  match v with
  | .obj fs =>
    match lookupField "raw_url" fs with
    | some (.str u) => some ⟨u⟩
    | _ => none
  | _ => none

/-- Pydantic validation of one gist object: requires a string `html_url` and
a `files` object whose every value validates as a file schema. -/
def parseGist (v : JVal) : Option GistApiResponseSchema :=
  match v with
  | .obj fs =>
    match lookupField "html_url" fs, lookupField "files" fs with
    | some (.str u), some (.obj fvs) =>
      match fvs.mapM (fun kv => Option.map (fun f => (kv.1, f)) (parseFileSchema kv.2)) with
      | some files => some ⟨u, files⟩
      | none => none
    | _, _ => none
  | _ => none

/-- `pydantic.parse_obj_as(List[GistApiResponseSchema], data)`: the body must
be an array whose every element validates. -/
def parsePage (v : JVal) : Option (List GistApiResponseSchema) :=
  match v with
  | .arr xs => xs.mapM parseGist
  | _ => none

/-! ## The remote world and the paste-list fetcher -/

/-- A raw HTTP response body, as `data = response.json()` receives it:
either text that decodes to a JSON value, or text that is not valid JSON —
on the latter `response.json()` raises `requests.exceptions.JSONDecodeError`,
an exception that is none of this module's classified kinds. -/
inductive RawBody where
  | json : JVal → RawBody
  | notJson : RawBody

/-- Oracle for the external HTTP collaborators.  `pages p` is the status code
and raw body the gist-list endpoint returns for `params={page: p}`;
`fileLines u` is the line stream a GET of the raw-content URL `u` yields, or
`.error ()` when the request raises a (transport-level, unclassified)
exception. -/
structure Remote where
  pages : Nat → Nat × RawBody
  fileLines : String → Except Unit (List String)

/-- Decidable equality of fetch results, used to evaluate concrete runs. -/
instance exceptDecEq {e a : Type} [DecidableEq e] [DecidableEq a] :
    DecidableEq (Except e a) := fun x y =>
  match x, y with
  | .ok v, .ok v2 =>
      if h : v = v2 then isTrue (by rw [h])
      else isFalse (by intro hc; injection hc; exact h ‹v = v2›)
  | .error v, .error v2 =>
      if h : v = v2 then isTrue (by rw [h])
      else isFalse (by intro hc; injection hc; exact h ‹v = v2›)
  | .ok _, .error _ => isFalse (fun hc => Except.noConfusion hc)
  | .error _, .ok _ => isFalse (fun hc => Except.noConfusion hc)


/-- The three exception classes raised by `gists_for_user`. -/
inductive FetchError where
  | userNotFound
  | malformedResponse
  | unexpectedStatusCode
deriving DecidableEq

/-- How a run of the `gists_for_user` generator ends: a normal return
(`done`: empty body, or loop exhausted), one of the module's three classified
exceptions (`failed`), or the unclassified `JSONDecodeError` that
`data = response.json()` raises on a 200 body that is not valid JSON
(`decodeError`) — the source converts that one to nothing, so it keeps its
library type. -/
inductive GenEnd where
  | done : GenEnd
  | failed : FetchError → GenEnd
  | decodeError : GenEnd
deriving DecidableEq

/-- The paging loop of `gists_for_user`, entered with counter value `page`:
`while page <= 5: page += 1; ...`.  A Python generator is embedded as the
list of pages it yields together with its terminal `GenEnd` event.
Status-code literals follow `requests.codes`: 404 `not_found`, 403
`forbidden`, 200 `ok`; after the status checks, `data = response.json()`
decodes the body (raising `decodeError` when it is not JSON), then the
falsiness check and the pydantic parse run on the decoded value.  The loop
guard `page <= 5` is the source's continuation check; the extra `fuel`
argument only witnesses termination structurally, returns the
guard-exhausted value when it runs out, and is irrelevant as soon as it
exceeds `6 - page` (`gistsLoop_fuel_irrelevant` below). -/
def gistsLoop (w : Remote) :
    Nat → Nat → List (List GistApiResponseSchema) × GenEnd
  | _, 0 => ([], .done)
  | page, fuel + 1 =>
    if page ≤ 5 then
      let status := (w.pages (page + 1)).1
      if status = 404 then ([], .failed .userNotFound)
      else if status = 403 then ([], .failed .unexpectedStatusCode)
      else if status ≠ 200 then ([], .failed .unexpectedStatusCode)
      else
        match (w.pages (page + 1)).2 with
        | .notJson => ([], .decodeError)
        | .json data =>
          if jsonFalsy data then ([], .done)
          else
            match parsePage data with
            | none => ([], .failed .malformedResponse)
            | some gists =>
              let rest := gistsLoop w (page + 1) fuel
              (gists :: rest.1, rest.2)
    else ([], .done)

/-- `gists_for_user(username)`: the generator run from its initial state
`page = 0` (fuel 7 exceeds `6 - 0`, so the run always ends through the
loop guard). -/
def gists_for_user (w : Remote) :
    List (List GistApiResponseSchema) × GenEnd :=
  gistsLoop w 0 7

/-! ## The content matcher -/

/-- The inner loop of `_gist_matches` over one file's line stream: stops at
the first line the compiled pattern matches (at line start).  Returns whether
a match was found together with the list of lines actually tested, in order
(for the short-circuit properties: a lazily fetched line is only pulled when
tested). -/
def scanLines (r : RE) : List String → Bool × List String
  | [] => (false, [])
  | l :: ls =>
    if re_match r l then (true, [l])
    else
      let rest := scanLines r ls
      (rest.1, l :: rest.2)

/-- The outer loop of `_gist_matches` over `gist.files.values()`, fetching
each file's raw content via `_fetch_file_lines`.  Returns the result
(`.error ()` when a content fetch raises), the raw URLs actually requested,
and the lines actually tested. -/
def scanFiles (w : Remote) (r : RE) :
    List (String × GistApiFileResponseSchema) →
      Except Unit Bool × (List String × List String)
  | [] => (.ok false, ([], []))
  | (_, f) :: rest =>
    match w.fileLines f.raw_url with
    | .error e => (.error e, ([f.raw_url], []))
    | .ok ls =>
      let sc := scanLines r ls
      if sc.1 then (.ok true, ([f.raw_url], sc.2))
      else
        let tail := scanFiles w r rest
        (tail.1, (f.raw_url :: tail.2.1, sc.2 ++ tail.2.2))

/-- `_gist_matches(gist, regex)`: `.ok` result, or `.error ()` when a content
fetch raised.  The error type is `Unit`: the failure carries no
classification and in particular is none of the `FetchError` kinds. -/
def gist_matches (w : Remote) (r : RE) (g : GistApiResponseSchema) :
    Except Unit Bool :=
  (scanFiles w r g.files).1

/-! ## The search view -/

/-- Values appearing in a response body's JSON object. -/
inductive BVal where
  | s : String → BVal
  | l : List String → BVal
deriving DecidableEq

/-- Outcome of the `search` view: an HTTP response (status code and JSON
object body), or an exception escaping the view function uncaught (Flask
then produces its own framework-level error page; no handler-built response
exists). -/
inductive Outcome where
  | response : Nat → List (String × BVal) → Outcome
  | unhandled : Outcome
deriving DecidableEq

/-- Body of the view's error responses. -/
def errorBody (msg : String) : List (String × BVal) :=
  [("status", .s "error"), ("message", .s msg)]

/-- Body of `SearchResponseSchema(...).dict()`. -/
def successBody (username pat : String) (ms : List String) :
    List (String × BVal) :=
  [("status", .s "success"), ("username", .s username),
   ("pattern", .s pat), ("matches", .l ms)]

/-- `SearchRequestSchema`: username and pattern, both strings. -/
structure SearchRequestSchema where
  username : String
  pattern : String
deriving DecidableEq

/-- `SearchRequestSchema.parse_obj(request.get_json())`: requires string
fields `username` and `pattern`; extra fields are ignored. -/
def parseSearchRequest (v : JVal) : Option SearchRequestSchema :=
  match v with
  | .obj fs =>
    match lookupField "username" fs, lookupField "pattern" fs with
    | some (.str u), some (.str p) => some ⟨u, p⟩
    | _, _ => none
  | _ => none

/-- Stand-in for the pydantic validation detail `err.json()` placed in the
400 response body (its exact text is not modelled). -/
def validationDetail : String := "request body failed schema validation"

/-- The matching loop body for one yielded page: for each gist, append its
`html_url` to the accumulated matches when `_gist_matches` holds; a content
fetch failure propagates. -/
def matchPage (w : Remote) (r : RE) :
    List GistApiResponseSchema → List String → Except Unit (List String)
  | [], acc => .ok acc
  | g :: gs, acc =>
    match gist_matches w r g with
    | .error e => .error e
    | .ok true => matchPage w r gs (acc ++ [g.html_url])
    | .ok false => matchPage w r gs acc

/-- The `for page in gists_for_user(username)` loop over the yielded pages. -/
def matchPages (w : Remote) (r : RE) :
    List (List GistApiResponseSchema) → List String → Except Unit (List String)
  | [], acc => .ok acc
  | p :: ps, acc =>
    match matchPage w r p acc with
    | .error e => .error e
    | .ok acc1 => matchPages w r ps acc1

/-- The `search` view.  Control flow of the source: validate the request body
(400 on failure); `re.compile` the pattern — a compile failure is raised
outside any try block, so it escapes (`unhandled`); consume the generator,
matching each yielded page's gists — a content-fetch failure during matching
is raised inside the try block but matches none of its `except` clauses, so
it too escapes (and it does so while processing a yielded page, before the
generator can raise any terminal error); otherwise map the generator's
terminal event: `UserNotFound` to 404, the other two classified exceptions
to a generic 500, the unclassified `JSONDecodeError` — which also matches no
`except` clause — to an unhandled escape, and normal termination to the 200
success body. -/
def search (w : Remote) (body : JVal) : Outcome :=
  match parseSearchRequest body with
  | none => .response 400 (errorBody validationDetail)
  | some req =>
    match re_compile req.pattern with
    | none => .unhandled
    | some r =>
      let run := gists_for_user w
      match matchPages w r run.1 [] with
      | .error _ => .unhandled
      | .ok ms =>
        match run.2 with
        | .failed .userNotFound =>
            .response 404 (errorBody ("User " ++ req.username ++ " not found"))
        | .failed .malformedResponse => .response 500 (errorBody "Internal error")
        | .failed .unexpectedStatusCode => .response 500 (errorBody "Internal error")
        | .decodeError => .unhandled
        | .done => .response 200 (successBody req.username req.pattern ms)

/-- A page request is "good" when it returns 200 with a JSON-decodable,
non-falsy body that validates as a page of gists. -/
def goodPage (w : Remote) (p : Nat) : Prop :=
  (w.pages p).1 = 200 ∧ ∃ v, (w.pages p).2 = RawBody.json v ∧
    jsonFalsy v = false ∧ (parsePage v).isSome = true

/-! ## Concrete inputs used by witnesses and counterexamples -/

/-- JSON for a gist with public URL `gu` and one file `f1` at raw URL `u1`. -/
def gistJson : JVal :=
  .obj [("html_url", .str "gu"),
        ("files", .obj [("f1", .obj [("raw_url", .str "u1")])])]

/-- The gist `gistJson` parses to. -/
def gist1 : GistApiResponseSchema := ⟨"gu", [("f1", ⟨"u1"⟩)]⟩

/-- Remote with endless non-empty pages: every page request returns 200 with
one gist; all file content is empty. -/
def wSix : Remote :=
  { pages := fun _ => (200, .json (.arr [gistJson])),
    fileLines := fun _ => .ok [] }

/-- Request body: username `alice`, pattern `b`. -/
def aliceB : JVal :=
  .obj [("username", .str "alice"), ("pattern", .str "b")]

/-- Request body whose pattern `(` does not compile. -/
def aliceBadPattern : JVal :=
  .obj [("username", .str "alice"), ("pattern", .str "(")]

/-- Remote whose page 1 holds one gist with matching content and whose page 2
is the empty list. -/
def wOnePage : Remote :=
  { pages := fun p =>
      if p = 1 then (200, .json (.arr [gistJson])) else (200, .json (.arr [])),
    fileLines := fun _ => .ok ["bb", "x"] }

/-- Remote that returns 404 to every page request. -/
def wNotFound : Remote :=
  { pages := fun _ => (404, .json .null), fileLines := fun _ => .ok [] }

/-- Remote that returns 403 to every page request. -/
def wForbidden : Remote :=
  { pages := fun _ => (403, .json .null), fileLines := fun _ => .ok [] }

/-- Remote whose page 1 holds one gist with matching content and whose page 2
returns 404. -/
def wMatchThen404 : Remote :=
  { pages := fun p =>
      if p = 1 then (200, .json (.arr [gistJson])) else (404, .json .null),
    fileLines := fun _ => .ok ["bb"] }

/-- Remote whose page 1 holds one gist and whose content fetches all raise. -/
def wContentFail : Remote :=
  { pages := fun p =>
      if p = 1 then (200, .json (.arr [gistJson])) else (200, .json (.arr [])),
    fileLines := fun _ => .error () }

/-- Remote whose page bodies are valid JSON but not a list of gists. -/
def wMalformed : Remote :=
  { pages := fun _ => (200, .json (.num 7)), fileLines := fun _ => .ok [] }

/-- Remote whose 200 page bodies are not valid JSON at all, so
`response.json()` raises. -/
def wNotJson : Remote :=
  { pages := fun _ => (200, .notJson), fileLines := fun _ => .ok [] }


/-- Remote for the matcher witnesses: `u1` has one non-matching line, `u2`
matches pattern `b` on its second line, any other fetch raises. -/
def wScan : Remote :=
  { pages := fun _ => (200, .json (.arr [])),
    fileLines := fun u =>
      if u = "u1" then .ok ["x"]
      else if u = "u2" then .ok ["y", "bb", "z"]
      else .error () }

/-- A gist with three files in iteration order `f1`, `f2`, `f3`. -/
def gist3 : GistApiResponseSchema :=
  ⟨"g3", [("f1", ⟨"u1"⟩), ("f2", ⟨"u2"⟩), ("f3", ⟨"u3"⟩)]⟩

/-- Remote for the empty-pattern witness: `u1` yields a single empty line. -/
def wEmptyLine : Remote :=
  { pages := fun _ => (200, .json (.arr [])),
    fileLines := fun u => if u = "u1" then .ok [""] else .ok [] }


theorem accepts_fail_iff (s : List Char) : Accepts .fail s ↔ False := by
  constructor
  · intro h; cases h
  · intro h; exact h.elim

theorem accepts_eps_iff (s : List Char) : Accepts .eps s ↔ s = [] := by
  constructor
  · intro h; cases h; rfl
  · rintro rfl; exact .eps

theorem accepts_anyc_iff (s : List Char) : Accepts .anyc s ↔ ∃ c, s = [c] := by
  constructor
  · intro h; cases h with | anyc c => exact ⟨c, rfl⟩
  · rintro ⟨c, rfl⟩; exact .anyc c

theorem accepts_lit_iff (a : Char) (s : List Char) :
    Accepts (.lit a) s ↔ s = [a] := by
  constructor
  · intro h; cases h; rfl
  · rintro rfl; exact .lit a

theorem accepts_alt_iff (a b : RE) (s : List Char) :
    Accepts (.alt a b) s ↔ Accepts a s ∨ Accepts b s := by
  constructor
  · intro h
    cases h with
    | altL h => exact Or.inl h
    | altR h => exact Or.inr h
  · rintro (h | h)
    · exact .altL h
    · exact .altR h

theorem accepts_seq_iff (a b : RE) (s : List Char) :
    Accepts (.seq a b) s ↔ ∃ t u, s = t ++ u ∧ Accepts a t ∧ Accepts b u := by
  constructor
  · intro h
    cases h with
    | seqI ha hb => exact ⟨_, _, rfl, ha, hb⟩
  · rintro ⟨t, u, rfl, ha, hb⟩
    exact .seqI ha hb

theorem nullable_iff_accepts_nil (r : RE) : nullable r = true ↔ Accepts r [] := by
  induction r with
  | fail => simp [nullable, accepts_fail_iff]
  | eps => simp [nullable, accepts_eps_iff]
  | anyc => simp [nullable, accepts_anyc_iff]
  | lit c => simp [nullable, accepts_lit_iff]
  | alt a b iha ihb =>
      simp [nullable, accepts_alt_iff, Bool.or_eq_true, iha, ihb]
  | seq a b iha ihb =>
      simp only [nullable, Bool.and_eq_true, iha, ihb, accepts_seq_iff]
      constructor
      · rintro ⟨ha, hb⟩; exact ⟨[], [], rfl, ha, hb⟩
      · rintro ⟨t, u, h, ha, hb⟩
        rcases List.append_eq_nil.mp h.symm with ⟨rfl, rfl⟩
        exact ⟨ha, hb⟩
  | star a _ =>
      simp only [nullable, true_iff]
      exact .starNil

theorem accepts_star_decomp_aux (r : RE) (x : List Char) (h : Accepts r x) :
    ∀ a, r = .star a →
      x = [] ∨ ∃ t u, x = t ++ u ∧ t ≠ [] ∧ Accepts a t ∧ Accepts (.star a) u := by
  induction h with
  | eps => intro a hr; simp at hr
  | anyc c => intro a hr; simp at hr
  | lit c => intro a hr; simp at hr
  | altL _ _ => intro a hr; simp at hr
  | altR _ _ => intro a hr; simp at hr
  | seqI _ _ _ _ => intro a hr; simp at hr
  | starNil => intro a _; exact Or.inl rfl
  | starCons hs ht _ iht =>
      rename_i a0 s t ihs0
      intro a hr
      injection hr with ha
      subst ha
      by_cases hs0 : s = []
      · subst hs0
        simpa using iht a0 rfl
      · exact Or.inr ⟨s, t, rfl, hs0, hs, ht⟩

/-- Nonempty strings in a star's language decompose with a nonempty head
factor. -/
theorem star_cons_decomp {a : RE} {x : List Char} (h : Accepts (.star a) x) :
    x = [] ∨ ∃ t u, x = t ++ u ∧ t ≠ [] ∧ Accepts a t ∧ Accepts (.star a) u :=
  accepts_star_decomp_aux _ x h a rfl

theorem deriv_fail (c : Char) : deriv .fail c = .fail := rfl

theorem deriv_eps (c : Char) : deriv .eps c = .fail := rfl

theorem deriv_anyc (c : Char) : deriv .anyc c = .eps := rfl

theorem deriv_lit_self (a : Char) : deriv (.lit a) a = .eps := by
  simp [deriv]

theorem deriv_lit_ne {a c : Char} (h : a ≠ c) : deriv (.lit a) c = .fail := by
  simp [deriv, h]

theorem deriv_alt (a b : RE) (c : Char) :
    deriv (.alt a b) c = .alt (deriv a c) (deriv b c) := rfl

theorem deriv_seq_pos {a : RE} (hn : nullable a = true) (b : RE) (c : Char) :
    deriv (.seq a b) c = .alt (.seq (deriv a c) b) (deriv b c) := by
  simp [deriv, hn]

theorem deriv_seq_neg {a : RE} (hn : nullable a = false) (b : RE) (c : Char) :
    deriv (.seq a b) c = .seq (deriv a c) b := by
  simp [deriv, hn]

theorem deriv_star (a : RE) (c : Char) :
    deriv (.star a) c = .seq (deriv a c) (.star a) := rfl

theorem accepts_deriv_iff (r : RE) (c : Char) (s : List Char) :
    Accepts (deriv r c) s ↔ Accepts r (c :: s) := by
  induction r generalizing s with
  | fail => simp [deriv_fail, accepts_fail_iff]
  | eps =>
      rw [deriv_eps]
      simp [accepts_fail_iff, accepts_eps_iff]
  | anyc =>
      rw [deriv_anyc]
      simp only [accepts_eps_iff, accepts_anyc_iff]
      constructor
      · rintro rfl; exact ⟨c, rfl⟩
      · rintro ⟨d, hd⟩
        have hc : c = d ∧ s = [] := by simpa using hd
        exact hc.2
  | lit a =>
      by_cases h : a = c
      · subst h
        rw [deriv_lit_self]
        simp only [accepts_eps_iff, accepts_lit_iff]
        constructor
        · rintro rfl; rfl
        · intro hs
          have hc : s = [] := by simpa using hs
          exact hc
      · rw [deriv_lit_ne h]
        simp only [accepts_fail_iff, accepts_lit_iff, false_iff]
        intro hs
        have hc : c = a ∧ s = [] := by simpa using hs
        exact h hc.1.symm
  | alt a b iha ihb =>
      rw [deriv_alt]
      simp [accepts_alt_iff, iha, ihb]
  | seq a b iha ihb =>
      by_cases hn : nullable a = true
      · rw [deriv_seq_pos hn]
        simp only [accepts_alt_iff, accepts_seq_iff, iha, ihb]
        constructor
        · rintro (⟨t, u, rfl, ha, hb⟩ | h)
          · exact ⟨c :: t, u, rfl, ha, hb⟩
          · exact ⟨[], c :: s, rfl, (nullable_iff_accepts_nil a).mp hn, h⟩
        · rintro ⟨t, u, heq, ha, hb⟩
          cases t with
          | nil =>
              right
              rw [List.nil_append] at heq
              exact heq ▸ hb
          | cons c1 t1 =>
              left
              have hc : c = c1 ∧ s = t1 ++ u := by simpa using heq
              obtain ⟨rfl, rfl⟩ := hc
              exact ⟨t1, u, rfl, ha, hb⟩
      · simp only [Bool.not_eq_true] at hn
        rw [deriv_seq_neg hn]
        simp only [accepts_seq_iff, iha]
        constructor
        · rintro ⟨t, u, rfl, ha, hb⟩
          exact ⟨c :: t, u, rfl, ha, hb⟩
        · rintro ⟨t, u, heq, ha, hb⟩
          cases t with
          | nil =>
              exact absurd ((nullable_iff_accepts_nil a).mpr ha) (by simp [hn])
          | cons c1 t1 =>
              have hc : c = c1 ∧ s = t1 ++ u := by simpa using heq
              obtain ⟨rfl, rfl⟩ := hc
              exact ⟨t1, u, rfl, ha, hb⟩
  | star a iha =>
      rw [deriv_star]
      simp only [accepts_seq_iff, iha]
      constructor
      · rintro ⟨t, u, rfl, ha, hu⟩
        have hs := Accepts.starCons ha hu
        simpa using hs
      · intro h
        rcases star_cons_decomp h with hnil | ⟨t, u, heq, tne, ht, hu⟩
        · simp at hnil
        · cases t with
          | nil => exact absurd rfl tne
          | cons c1 t1 =>
              have hc : c = c1 ∧ s = t1 ++ u := by simpa using heq
              obtain ⟨rfl, rfl⟩ := hc
              exact ⟨t1, u, rfl, ht, hu⟩

/-- Correctness of the match-at-start matcher: `regex.match(s)` is truthy iff
some prefix of `s` is in the pattern's language. -/
theorem reMatch_iff (r : RE) (s : List Char) :
    reMatch r s = true ↔ ∃ p q, s = p ++ q ∧ Accepts r p := by
  induction s generalizing r with
  | nil =>
      simp only [reMatch, nullable_iff_accepts_nil]
      constructor
      · intro h; exact ⟨[], [], rfl, h⟩
      · rintro ⟨p, q, h, hp⟩
        rcases List.append_eq_nil.mp h.symm with ⟨rfl, rfl⟩
        exact hp
  | cons c cs ih =>
      simp only [reMatch, Bool.or_eq_true, nullable_iff_accepts_nil, ih]
      constructor
      · rintro (h | ⟨p, q, rfl, hp⟩)
        · exact ⟨[], c :: cs, rfl, h⟩
        · exact ⟨c :: p, q, rfl, (accepts_deriv_iff r c p).mp hp⟩
      · rintro ⟨p, q, heq, hp⟩
        cases p with
        | nil => exact Or.inl hp
        | cons c1 p1 =>
            right
            have hc : c = c1 ∧ cs = p1 ++ q := by simpa using heq
            obtain ⟨rfl, rfl⟩ := hc
            exact ⟨p1, q, rfl, (accepts_deriv_iff r c p1).mpr hp⟩

theorem re_match_iff (r : RE) (l : String) :
    re_match r l = true ↔ ∃ p q, l.data = p ++ q ∧ Accepts r p :=
  reMatch_iff r l.data

/-- The empty pattern matches (at position zero) every string. -/
theorem re_match_eps (l : String) : re_match RE.eps l = true := by
  unfold re_match
  cases l.data with
  | nil => rfl
  | cons c cs => simp [reMatch, nullable]

/-! ## Case equations and structural facts about the paging loop -/

theorem gistsLoop_stop (w : Remote) (page fuel : Nat) (h : ¬ page ≤ 5) :
    gistsLoop w page (fuel + 1) = ([], .done) := by
  simp [gistsLoop, h]

theorem gistsLoop_404 {w : Remote} {page : Nat} (fuel : Nat) (h5 : page ≤ 5)
    (h : (w.pages (page + 1)).1 = 404) :
    gistsLoop w page (fuel + 1) = ([], .failed .userNotFound) := by
  simp [gistsLoop, h5, h]

theorem gistsLoop_403 {w : Remote} {page : Nat} (fuel : Nat) (h5 : page ≤ 5)
    (h : (w.pages (page + 1)).1 = 403) :
    gistsLoop w page (fuel + 1) = ([], .failed .unexpectedStatusCode) := by
  simp [gistsLoop, h5, h]

theorem gistsLoop_other_status {w : Remote} {page : Nat} (fuel : Nat)
    (h5 : page ≤ 5) (h404 : (w.pages (page + 1)).1 ≠ 404)
    (h200 : (w.pages (page + 1)).1 ≠ 200) :
    gistsLoop w page (fuel + 1) = ([], .failed .unexpectedStatusCode) := by
  by_cases h403 : (w.pages (page + 1)).1 = 403
  · exact gistsLoop_403 fuel h5 h403
  · simp [gistsLoop, h5, h404, h403, h200]

theorem gistsLoop_notJson {w : Remote} {page : Nat} (fuel : Nat)
    (h5 : page ≤ 5) (hok : (w.pages (page + 1)).1 = 200)
    (hb : (w.pages (page + 1)).2 = RawBody.notJson) :
    gistsLoop w page (fuel + 1) = ([], .decodeError) := by
  simp [gistsLoop, h5, hok, hb]

theorem gistsLoop_falsy {w : Remote} {page : Nat} {v : JVal} (fuel : Nat)
    (h5 : page ≤ 5) (hok : (w.pages (page + 1)).1 = 200)
    (hb : (w.pages (page + 1)).2 = RawBody.json v)
    (hf : jsonFalsy v = true) :
    gistsLoop w page (fuel + 1) = ([], .done) := by
  simp [gistsLoop, h5, hok, hb, hf]

theorem gistsLoop_malformed {w : Remote} {page : Nat} {v : JVal} (fuel : Nat)
    (h5 : page ≤ 5) (hok : (w.pages (page + 1)).1 = 200)
    (hb : (w.pages (page + 1)).2 = RawBody.json v)
    (hf : jsonFalsy v = false) (hp : parsePage v = none) :
    gistsLoop w page (fuel + 1) = ([], .failed .malformedResponse) := by
  simp [gistsLoop, h5, hok, hb, hf, hp]

theorem gistsLoop_yield {w : Remote} {page : Nat} {v : JVal} (fuel : Nat)
    (h5 : page ≤ 5) (hok : (w.pages (page + 1)).1 = 200)
    (hb : (w.pages (page + 1)).2 = RawBody.json v)
    (hf : jsonFalsy v = false)
    {gists : List GistApiResponseSchema}
    (hp : parsePage v = some gists) :
    gistsLoop w page (fuel + 1) =
      (gists :: (gistsLoop w (page + 1) fuel).1, (gistsLoop w (page + 1) fuel).2) := by
  simp [gistsLoop, h5, hok, hb, hf, hp]

/-- Fuel does not affect the run once it exceeds the pages the guard still
allows. -/
theorem gistsLoop_fuel_irrelevant (w : Remote) :
    ∀ f1 f2 page, 6 - page < f1 → 6 - page < f2 →
      gistsLoop w page f1 = gistsLoop w page f2 := by
  intro f1
  induction f1 with
  | zero => intro f2 page h1 _; omega
  | succ f1 ih =>
      intro f2 page h1 h2
      match f2, h2 with
      | f2 + 1, h2 =>
        by_cases h5 : page ≤ 5
        · by_cases h404 : (w.pages (page + 1)).1 = 404
          · rw [gistsLoop_404 f1 h5 h404, gistsLoop_404 f2 h5 h404]
          · by_cases h403 : (w.pages (page + 1)).1 = 403
            · rw [gistsLoop_403 f1 h5 h403, gistsLoop_403 f2 h5 h403]
            · by_cases h200 : (w.pages (page + 1)).1 = 200
              · cases hb : (w.pages (page + 1)).2 with
                | notJson =>
                    rw [gistsLoop_notJson f1 h5 h200 hb,
                        gistsLoop_notJson f2 h5 h200 hb]
                | json v =>
                    by_cases hf : jsonFalsy v = true
                    · rw [gistsLoop_falsy f1 h5 h200 hb hf,
                          gistsLoop_falsy f2 h5 h200 hb hf]
                    · rw [Bool.not_eq_true] at hf
                      cases hp : parsePage v with
                      | none =>
                          rw [gistsLoop_malformed f1 h5 h200 hb hf hp,
                              gistsLoop_malformed f2 h5 h200 hb hf hp]
                      | some gists =>
                          rw [gistsLoop_yield f1 h5 h200 hb hf hp,
                              gistsLoop_yield f2 h5 h200 hb hf hp,
                              ih f2 (page + 1) (by omega) (by omega)]
              · rw [gistsLoop_other_status f1 h5 h404 h200,
                    gistsLoop_other_status f2 h5 h404 h200]
        · rw [gistsLoop_stop w page f1 h5, gistsLoop_stop w page f2 h5]

/-- Whatever the remote returns, the loop never yields more pages than the
guard allows from its current counter value. -/
theorem gistsLoop_length_le (w : Remote) :
    ∀ fuel page, (gistsLoop w page fuel).1.length ≤ 6 - page := by
  intro fuel
  induction fuel with
  | zero => intro page; simp [gistsLoop]
  | succ fuel ih =>
      intro page
      by_cases h5 : page ≤ 5
      · by_cases h404 : (w.pages (page + 1)).1 = 404
        · rw [gistsLoop_404 fuel h5 h404]; simp
        · by_cases h403 : (w.pages (page + 1)).1 = 403
          · rw [gistsLoop_403 fuel h5 h403]; simp
          · by_cases h200 : (w.pages (page + 1)).1 = 200
            · cases hb : (w.pages (page + 1)).2 with
              | notJson => rw [gistsLoop_notJson fuel h5 h200 hb]; simp
              | json v =>
                  by_cases hf : jsonFalsy v = true
                  · rw [gistsLoop_falsy fuel h5 h200 hb hf]; simp
                  · rw [Bool.not_eq_true] at hf
                    cases hp : parsePage v with
                    | none => rw [gistsLoop_malformed fuel h5 h200 hb hf hp]; simp
                    | some gists =>
                        rw [gistsLoop_yield fuel h5 h200 hb hf hp]
                        have := ih (page + 1)
                        simp only [List.length_cons]
                        omega
            · rw [gistsLoop_other_status fuel h5 h404 h200]; simp
      · rw [gistsLoop_stop w page fuel h5]; simp

/-- With good data on every remaining page the loop runs to the guard limit:
it yields one page per remaining iteration and ends without error. -/
theorem gistsLoop_good (w : Remote) :
    ∀ fuel page, 6 - page < fuel →
      (∀ p, page < p → p ≤ 6 → goodPage w p) →
      (gistsLoop w page fuel).1.length = 6 - page ∧
        (gistsLoop w page fuel).2 = .done := by
  intro fuel
  induction fuel with
  | zero => intro page h1 _; omega
  | succ fuel ih =>
      intro page h1 hgood
      by_cases h5 : page ≤ 5
      · obtain ⟨hok, v, hb, hf, hp⟩ := hgood (page + 1) (by omega) (by omega)
        obtain ⟨gists, hp1⟩ := Option.isSome_iff_exists.mp hp
        rw [gistsLoop_yield fuel h5 hok hb hf hp1]
        have hrec := ih (page + 1) (by omega)
          (fun p hpa hpb => hgood p (by omega) hpb)
        refine ⟨?_, hrec.2⟩
        simp only [List.length_cons, hrec.1]
        omega
      · rw [gistsLoop_stop w page fuel h5]
        refine ⟨?_, rfl⟩
        simp only [List.length_nil]
        omega


/-! ## Structural facts about the content matcher -/

theorem scanLines_found_iff (r : RE) (lines : List String) :
    (scanLines r lines).1 = true ↔ ∃ l ∈ lines, re_match r l = true := by
  induction lines with
  | nil => simp [scanLines]
  | cons l ls ih =>
      by_cases h : re_match r l = true
      · simp [scanLines, h]
      · simp only [Bool.not_eq_true] at h
        simp [scanLines, h, ih]

theorem scanLines_none (r : RE) (lines : List String)
    (h : ∀ l ∈ lines, re_match r l = false) :
    scanLines r lines = (false, lines) := by
  induction lines with
  | nil => simp [scanLines]
  | cons l ls ih =>
      have hl := h l (by simp)
      have hrest := ih (fun x hx => h x (by simp [hx]))
      simp [scanLines, hl, hrest]

theorem scanLines_first (r : RE) (a : List String) (m : String)
    (b : List String) (ha : ∀ l ∈ a, re_match r l = false)
    (hm : re_match r m = true) :
    scanLines r (a ++ m :: b) = (true, a ++ [m]) := by
  induction a with
  | nil => simp [scanLines, hm]
  | cons l ls ih =>
      have hl := ha l (by simp)
      have hrest := ih (fun x hx => ha x (by simp [hx]))
      simp [scanLines, hl, hrest]

/-- When every file's content fetch succeeds, the matcher cannot raise. -/
theorem scanFiles_no_error (w : Remote) (r : RE)
    (files : List (String × GistApiFileResponseSchema))
    (h : ∀ f ∈ files, ∃ ls, w.fileLines f.2.raw_url = .ok ls) :
    (scanFiles w r files).1 = .ok true ∨ (scanFiles w r files).1 = .ok false := by
  induction files with
  | nil => right; simp [scanFiles]
  | cons nf rest ih =>
      obtain ⟨n1, f1⟩ := nf
      obtain ⟨ls, hls⟩ := h (n1, f1) (by simp)
      by_cases hsc : (scanLines r ls).1 = true
      · left; simp [scanFiles, hls, hsc]
      · simp only [Bool.not_eq_true] at hsc
        have hrec := ih (fun f hf => h f (by simp [hf]))
        simpa [scanFiles, hls, hsc] using hrec

/-- With the empty pattern, the matcher finds a match exactly when some file's
content yields at least one line. -/
theorem scanFiles_eps_true_iff (w : Remote)
    (files : List (String × GistApiFileResponseSchema))
    (h : ∀ f ∈ files, ∃ ls, w.fileLines f.2.raw_url = .ok ls) :
    (scanFiles w .eps files).1 = .ok true ↔
      ∃ f ∈ files, ∃ ls, w.fileLines f.2.raw_url = .ok ls ∧ ls ≠ [] := by
  induction files with
  | nil => simp [scanFiles]
  | cons nf rest ih =>
      obtain ⟨n1, f1⟩ := nf
      obtain ⟨ls, hls⟩ := h (n1, f1) (by simp)
      cases ls with
      | nil =>
          have hrec := ih (fun f hf => h f (by simp [hf]))
          have hnf : ¬ ∃ ls2, w.fileLines f1.raw_url = Except.ok ls2 ∧ ls2 ≠ [] := by
            rintro ⟨ls2, h1, h2⟩
            rw [hls] at h1
            injection h1 with h3
            exact h2 h3.symm
          rw [show scanFiles w .eps ((n1, f1) :: rest)
                = ((scanFiles w .eps rest).1,
                   (f1.raw_url :: (scanFiles w .eps rest).2.1,
                    [] ++ (scanFiles w .eps rest).2.2)) by
              simp [scanFiles, hls, scanLines]]
          simp only [List.mem_cons]
          constructor
          · intro ht
            obtain ⟨f, hf, hwit⟩ := hrec.mp ht
            exact ⟨f, Or.inr hf, hwit⟩
          · rintro ⟨f, hf | hf, hwit⟩
            · rw [hf] at hwit
              exact absurd hwit hnf
            · exact hrec.mpr ⟨f, hf, hwit⟩
      | cons l ls1 =>
          have hone : (scanLines RE.eps (l :: ls1)).1 = true := by
            simp [scanLines, re_match_eps]
          rw [show scanFiles w .eps ((n1, f1) :: rest)
                = (.ok true, ([f1.raw_url], (scanLines RE.eps (l :: ls1)).2)) by
              simp [scanFiles, hls, hone]]
          constructor
          · intro _
            exact ⟨(n1, f1), by simp, l :: ls1, hls, by simp⟩
          · intro _
            rfl

/-! ## Claims -/

/-- C1, counterexample: against a remote with more than 5 pages of non-empty
results (`wSix` answers every page request with a non-empty page), the
fetcher yields MORE than 5 pages — the loop `page = 0; while page <= 5:
page += 1` runs for page values 1 through 6, so 6 pages are requested and
yielded. -/
theorem c1_pagination_ceiling_cex :
    ¬ ((gists_for_user wSix).1.length ≤ 5) := by decide

/-- C1, amended: the paste-list fetcher yields at most 6 parsed pages; when
the remote has more than 6 pages of non-empty, well-formed results it yields
exactly 6 pages and stops without failing. -/
theorem c1_pagination_ceiling :
    (∀ w : Remote, (gists_for_user w).1.length ≤ 6) ∧
    (∀ w : Remote, (∀ p, 1 ≤ p → p ≤ 6 → goodPage w p) →
      (gists_for_user w).1.length = 6 ∧ (gists_for_user w).2 = .done) := by
  constructor
  · intro w
    have h := gistsLoop_length_le w 7 0
    simpa [gists_for_user] using h
  · intro w hgood
    have h := gistsLoop_good w 7 0 (by omega)
      (fun p h1 h2 => hgood p (by omega) h2)
    simpa [gists_for_user] using h

/-- C1, witness: the amended ceiling at the concrete remote `wSix`. -/
theorem c1_pagination_ceiling_witness :
    (gists_for_user wSix).1.length = 6 ∧ (gists_for_user wSix).2 = .done :=
  c1_pagination_ceiling.2 wSix
    (fun _ _ _ => ⟨rfl, .arr [gistJson], rfl, rfl, rfl⟩)

/-- C2, counterexample: for the request body whose pattern `(` does not
compile, the view does NOT return a 400-class validation response: the
`re.compile` call sits outside every try block, so the `re.error` escapes the
view unhandled. -/
theorem c2_invalid_pattern_cex :
    search wNotFound aliceBadPattern = Outcome.unhandled ∧
      Outcome.unhandled ≠ Outcome.response 400 (errorBody validationDetail) :=
  ⟨rfl, by decide⟩

/-- C2, amended: for every request whose body passes schema validation but
whose pattern does not compile, the compile failure escapes the view as an
unhandled error (no 400-class response is produced), and no network call is
made: the outcome does not depend on the remote world at all. -/
theorem c2_invalid_pattern_unhandled :
    ∀ (w w2 : Remote) (body : JVal) (req : SearchRequestSchema),
      parseSearchRequest body = some req →
      re_compile req.pattern = none →
      search w body = Outcome.unhandled ∧ search w body = search w2 body := by
  intro w w2 body req hreq hcomp
  constructor
  · simp only [search, hreq, hcomp]
  · simp only [search, hreq, hcomp]

/-- C2, witness: the amended claim at the pattern `(`. -/
theorem c2_invalid_pattern_unhandled_witness :
    search wNotFound aliceBadPattern = Outcome.unhandled ∧
      search wNotFound aliceBadPattern = search wSix aliceBadPattern :=
  c2_invalid_pattern_unhandled wNotFound wSix aliceBadPattern
    ⟨"alice", "("⟩ rfl rfl

/-- C3: the per-line criterion of the matcher is match-at-position-zero —
the scan finds a match exactly when some line has a PREFIX in the pattern's
language — and this differs from "occurs anywhere in the line": there are a
pattern and a line where the pattern occurs at a nonzero position only, and
the scan rejects that line. -/
theorem c3_match_at_line_start :
    (∀ (r : RE) (lines : List String),
        (scanLines r lines).1 = true ↔
          ∃ l ∈ lines, ∃ p q, l.data = p ++ q ∧ Accepts r p) ∧
    (∃ (r : RE) (l : String),
        (∃ u v x, l.data = u ++ v ++ x ∧ u ≠ [] ∧ Accepts r v) ∧
          (scanLines r [l]).1 = false) := by
  constructor
  · intro r lines
    rw [scanLines_found_iff]
    constructor
    · rintro ⟨l, hl, hm⟩
      obtain ⟨p, q, heq, hp⟩ := (re_match_iff r l).mp hm
      exact ⟨l, hl, p, q, heq, hp⟩
    · rintro ⟨l, hl, p, q, heq, hp⟩
      exact ⟨l, hl, (re_match_iff r l).mpr ⟨p, q, heq, hp⟩⟩
  · exact ⟨.lit 'b', "ab",
      ⟨['a'], ['b'], [], rfl, by simp, .lit 'b'⟩, by decide⟩

/-- C4: first-match short-circuit.  For a paste whose files are `pres` (each
fetching to lines none of which match), then a file `fk` whose content is
`a ++ m :: b` with `m` the first matching line, then any trailing files
`post`: the matcher returns true, the raw URLs requested are exactly those of
the `pres` files and `fk` (nothing after `fk` is fetched), and the lines
tested are exactly the pre-files' lines followed by `a ++ [m]` (nothing after
the first matching line is tested). -/
theorem c4_first_match_short_circuit :
    ∀ (w : Remote) (r : RE)
      (pres : List ((String × GistApiFileResponseSchema) × List String))
      (nk : String) (fk : GistApiFileResponseSchema)
      (post : List (String × GistApiFileResponseSchema))
      (a : List String) (m : String) (b : List String),
      (∀ pr ∈ pres, w.fileLines pr.1.2.raw_url = .ok pr.2 ∧
          ∀ l ∈ pr.2, re_match r l = false) →
      w.fileLines fk.raw_url = .ok (a ++ m :: b) →
      (∀ l ∈ a, re_match r l = false) →
      re_match r m = true →
      scanFiles w r (pres.map Prod.fst ++ (nk, fk) :: post) =
        (.ok true,
         ((pres.map fun pr => pr.1.2.raw_url) ++ [fk.raw_url],
          (pres.map Prod.snd).flatten ++ (a ++ [m]))) := by
  intro w r pres nk fk post a m b
  induction pres with
  | nil =>
      intro _ hfk ha hm
      have hsc := scanLines_first r a m b ha hm
      simp [scanFiles, hfk, hsc]
  | cons pr prs ih =>
      intro hpre hfk ha hm
      obtain ⟨⟨pn, pf⟩, pls⟩ := pr
      obtain ⟨hok, hnone⟩ := hpre ((pn, pf), pls) (by simp)
      have hsc := scanLines_none r pls hnone
      have hrec := ih (fun x hx => hpre x (by simp [hx])) hfk ha hm
      simp [scanFiles, hok, hsc, hrec, List.append_assoc]

/-- C4, witness: the short-circuit at `wScan`: file `f1` has no match, `f2`
matches on its second line, `f3` — whose fetch would raise — is never
requested, and `f2`'s third line is never tested. -/
theorem c4_first_match_short_circuit_witness :
    scanFiles wScan (RE.lit 'b')
        [("f1", ⟨"u1"⟩), ("f2", ⟨"u2"⟩), ("f3", ⟨"u3"⟩)] =
      (.ok true, (["u1", "u2"], ["x", "y", "bb"])) := by
  have h := c4_first_match_short_circuit wScan (RE.lit 'b')
      [(("f1", ⟨"u1"⟩), ["x"])] "f2" ⟨"u2"⟩ [("f3", ⟨"u3"⟩)]
      ["y"] "bb" ["z"] (by decide) (by decide) (by decide) (by decide)
  simpa using h

/-- C5: a page body `[]` ends pagination normally before the ceiling — the
loop, at any counter value the guard still admits, yields nothing further and
no error — and a search whose fetcher run ends without a terminal error and
whose matching raises nothing completes with 200 and the accumulated
matches. -/
theorem c5_empty_page_terminates :
    (∀ (w : Remote) (page fuel : Nat), page ≤ 5 →
        (w.pages (page + 1)).1 = 200 →
        (w.pages (page + 1)).2 = RawBody.json (JVal.arr []) →
        gistsLoop w page (fuel + 1) = ([], .done)) ∧
    (∀ (w : Remote) (body : JVal) (req : SearchRequestSchema) (r : RE)
        (ms : List String),
        parseSearchRequest body = some req →
        re_compile req.pattern = some r →
        (gists_for_user w).2 = .done →
        matchPages w r (gists_for_user w).1 [] = .ok ms →
        search w body = .response 200 (successBody req.username req.pattern ms)) := by
  constructor
  · intro w page fuel h5 hok hb
    exact gistsLoop_falsy fuel h5 hok hb rfl
  · intro w body req r ms hreq hcomp hfin hmat
    simp only [search, hreq, hcomp, hmat, hfin]

/-- C5, witness: page 2 of `wOnePage` is `[]`, so the loop entered at counter
1 ends at once with no error, and the full search returns the single match
accumulated from page 1. -/
theorem c5_empty_page_terminates_witness :
    gistsLoop wOnePage 1 6 = ([], .done) ∧
      search wOnePage aliceB =
        .response 200 (successBody "alice" "b" ["gu"]) :=
  ⟨c5_empty_page_terminates.1 wOnePage 1 5 (by decide) rfl rfl,
   c5_empty_page_terminates.2 wOnePage aliceB ⟨"alice", "b"⟩
     ((RE.lit 'b').seq RE.eps) ["gu"] rfl rfl rfl rfl⟩

/-- C6: a 404 on a page request makes the loop raise `UserNotFound` at once,
and a search whose fetcher run ends in `UserNotFound` (and whose matching
raises nothing) returns HTTP 404 with the error body naming the requested
username. -/
theorem c6_user_not_found_404 :
    (∀ (w : Remote) (page fuel : Nat), page ≤ 5 →
        (w.pages (page + 1)).1 = 404 →
        gistsLoop w page (fuel + 1) = ([], .failed FetchError.userNotFound)) ∧
    (∀ (w : Remote) (body : JVal) (req : SearchRequestSchema) (r : RE)
        (ms : List String),
        parseSearchRequest body = some req →
        re_compile req.pattern = some r →
        (gists_for_user w).2 = .failed FetchError.userNotFound →
        matchPages w r (gists_for_user w).1 [] = .ok ms →
        search w body = .response 404
          (errorBody ("User " ++ req.username ++ " not found"))) := by
  constructor
  · intro w page fuel h5 h404
    exact gistsLoop_404 fuel h5 h404
  · intro w body req r ms hreq hcomp hfin hmat
    simp only [search, hreq, hcomp, hmat, hfin]

/-- C6, witness: `wNotFound` 404s page 1; the search for `alice` returns 404
with the templated message. -/
theorem c6_user_not_found_404_witness :
    gistsLoop wNotFound 0 7 = ([], .failed FetchError.userNotFound) ∧
      search wNotFound aliceB =
        .response 404 (errorBody "User alice not found") :=
  ⟨c6_user_not_found_404.1 wNotFound 0 6 (by decide) rfl,
   c6_user_not_found_404.2 wNotFound aliceB ⟨"alice", "b"⟩
     ((RE.lit 'b').seq RE.eps) [] rfl rfl rfl rfl⟩

/-- C7, counterexample: a paste-list body can "fail to parse as the expected
shape" in a way that does NOT yield the 500 body: when the 200 body is not
valid JSON at all, `data = response.json()` (gistapi.py line 82) raises
`JSONDecodeError`, which is none of the module's exception classes and
matches neither `except` clause of the view — the search ends unhandled, and
no `Internal error` response body is produced. -/
theorem c7_upstream_errors_500_cex :
    search wNotJson aliceB = Outcome.unhandled ∧
      Outcome.unhandled ≠ Outcome.response 500 (errorBody "Internal error") :=
  ⟨rfl, by decide⟩

/-- C7, amended: any page-request status that is neither 200 nor 404 (403
included) makes the loop raise `UnexpectedStatusCode`; a 200 body that
decodes as JSON, is non-falsy, and fails schema validation makes it raise
`MalformedResponse`; a search whose fetcher run ends in either classified
kind (and whose matching raises nothing) returns HTTP 500 with exactly the
generic "Internal error" body.  A 200 body that is NOT valid JSON instead
raises the unclassified decode error, and the search then escapes unhandled,
producing no 500 body. -/
theorem c7_upstream_errors_500 :
    (∀ (w : Remote) (page fuel : Nat), page ≤ 5 →
        (w.pages (page + 1)).1 ≠ 404 → (w.pages (page + 1)).1 ≠ 200 →
        gistsLoop w page (fuel + 1) =
          ([], .failed FetchError.unexpectedStatusCode)) ∧
    (∀ (w : Remote) (page fuel : Nat) (v : JVal), page ≤ 5 →
        (w.pages (page + 1)).1 = 200 →
        (w.pages (page + 1)).2 = RawBody.json v →
        jsonFalsy v = false →
        parsePage v = none →
        gistsLoop w page (fuel + 1) =
          ([], .failed FetchError.malformedResponse)) ∧
    (∀ (w : Remote) (body : JVal) (req : SearchRequestSchema) (r : RE)
        (ms : List String) (e : FetchError),
        parseSearchRequest body = some req →
        re_compile req.pattern = some r →
        (gists_for_user w).2 = .failed e → e ≠ FetchError.userNotFound →
        matchPages w r (gists_for_user w).1 [] = .ok ms →
        search w body = .response 500 (errorBody "Internal error")) ∧
    (∀ (w : Remote) (page fuel : Nat), page ≤ 5 →
        (w.pages (page + 1)).1 = 200 →
        (w.pages (page + 1)).2 = RawBody.notJson →
        gistsLoop w page (fuel + 1) = ([], .decodeError)) ∧
    (∀ (w : Remote) (body : JVal) (req : SearchRequestSchema) (r : RE)
        (ms : List String),
        parseSearchRequest body = some req →
        re_compile req.pattern = some r →
        (gists_for_user w).2 = .decodeError →
        matchPages w r (gists_for_user w).1 [] = .ok ms →
        search w body = .unhandled) := by
  refine ⟨?_, ?_, ?_, ?_, ?_⟩
  · intro w page fuel h5 h404 h200
    exact gistsLoop_other_status fuel h5 h404 h200
  · intro w page fuel v h5 hok hb hf hp
    exact gistsLoop_malformed fuel h5 hok hb hf hp
  · intro w body req r ms e hreq hcomp hfin hne hmat
    cases e with
    | userNotFound => exact absurd rfl hne
    | malformedResponse => simp only [search, hreq, hcomp, hmat, hfin]
    | unexpectedStatusCode => simp only [search, hreq, hcomp, hmat, hfin]
  · intro w page fuel h5 hok hb
    exact gistsLoop_notJson fuel h5 hok hb
  · intro w body req r ms hreq hcomp hfin hmat
    simp only [search, hreq, hcomp, hmat, hfin]

/-- C7, witness: 403 on page 1 (`wForbidden`), a decodable non-list 200 body
(`wMalformed`), the resulting 500 response of the full search, and the
undecodable 200 body (`wNotJson`) whose search escapes unhandled. -/
theorem c7_upstream_errors_500_witness :
    gistsLoop wForbidden 0 7 = ([], .failed FetchError.unexpectedStatusCode) ∧
      gistsLoop wMalformed 0 7 = ([], .failed FetchError.malformedResponse) ∧
      search wForbidden aliceB = .response 500 (errorBody "Internal error") ∧
      gistsLoop wNotJson 0 7 = ([], .decodeError) ∧
      search wNotJson aliceB = .unhandled :=
  ⟨c7_upstream_errors_500.1 wForbidden 0 6 (by decide) (by decide) (by decide),
   c7_upstream_errors_500.2.1 wMalformed 0 6 (.num 7)
     (by decide) rfl rfl rfl rfl,
   c7_upstream_errors_500.2.2.1 wForbidden aliceB ⟨"alice", "b"⟩
     ((RE.lit 'b').seq RE.eps) [] FetchError.unexpectedStatusCode
     rfl rfl rfl (by decide) rfl,
   c7_upstream_errors_500.2.2.2.1 wNotJson 0 6 (by decide) rfl rfl,
   c7_upstream_errors_500.2.2.2.2 wNotJson aliceB ⟨"alice", "b"⟩
     ((RE.lit 'b').seq RE.eps) [] rfl rfl rfl rfl⟩

/-- C8: whenever the search ends in a classified-error response (status 404
or 500), the response body has no `matches` key at all — in particular no
partial match list — whatever had been accumulated. -/
theorem c8_no_partial_matches_on_error :
    ∀ (w : Remote) (body : JVal) (c : Nat) (b : List (String × BVal)),
      search w body = .response c b → (c = 404 ∨ c = 500) →
      "matches" ∉ b.map Prod.fst := by
  intro w body c b hs hc
  simp only [search] at hs
  cases hreq : parseSearchRequest body with
  | none =>
      simp only [hreq] at hs
      injection hs with h1 h2
      subst h1
      exact absurd hc (by decide)
  | some req =>
      simp only [hreq] at hs
      cases hcomp : re_compile req.pattern with
      | none =>
          simp only [hcomp] at hs
          exact Outcome.noConfusion hs
      | some r =>
          simp only [hcomp] at hs
          cases hmat : matchPages w r (gists_for_user w).1 [] with
          | error e =>
              simp only [hmat] at hs
              exact Outcome.noConfusion hs
          | ok ms =>
              simp only [hmat] at hs
              cases hfin : (gists_for_user w).2 with
              | done =>
                  simp only [hfin] at hs
                  injection hs with h1 h2
                  subst h1
                  exact absurd hc (by decide)
              | decodeError =>
                  simp only [hfin] at hs
                  exact Outcome.noConfusion hs
              | failed e =>
                  simp only [hfin] at hs
                  cases e with
                  | userNotFound =>
                      injection hs with h1 h2
                      subst h2
                      simp [errorBody]
                  | malformedResponse =>
                      injection hs with h1 h2
                      subst h2
                      simp [errorBody]
                  | unexpectedStatusCode =>
                      injection hs with h1 h2
                      subst h2
                      simp [errorBody]

/-- C8, witness: `wMatchThen404` accumulates the match `gu` from page 1 and
then 404s on page 2; the 404 error body carries no `matches` key. -/
theorem c8_no_partial_matches_on_error_witness :
    "matches" ∉ ((errorBody "User alice not found").map Prod.fst) :=
  c8_no_partial_matches_on_error wMatchThen404 aliceB 404
    (errorBody "User alice not found") rfl (Or.inl rfl)

/-- C9: a raw-content fetch failure during matching is unclassified and
uncaught.  At the matcher, the failure surfaces as `.error ()` — an error of
type `Unit`, carrying none of the fetcher's `FetchError` kinds — after
requesting only the files up to and including the failing one; at the view,
a matching run that raises makes the whole search end `unhandled`: none of
the `except` branches (404/500 responses) fires, whatever terminal event the
fetcher had. -/
theorem c9_content_failure_unclassified :
    (∀ (w : Remote) (r : RE)
        (pres : List ((String × GistApiFileResponseSchema) × List String))
        (nk : String) (fk : GistApiFileResponseSchema)
        (post : List (String × GistApiFileResponseSchema)),
        (∀ pr ∈ pres, w.fileLines pr.1.2.raw_url = .ok pr.2 ∧
            ∀ l ∈ pr.2, re_match r l = false) →
        w.fileLines fk.raw_url = .error () →
        scanFiles w r (pres.map Prod.fst ++ (nk, fk) :: post) =
          (.error (),
           ((pres.map fun pr => pr.1.2.raw_url) ++ [fk.raw_url],
            (pres.map Prod.snd).flatten))) ∧
    (∀ (w : Remote) (body : JVal) (req : SearchRequestSchema) (r : RE),
        parseSearchRequest body = some req →
        re_compile req.pattern = some r →
        matchPages w r (gists_for_user w).1 [] = .error () →
        search w body = .unhandled) := by
  constructor
  · intro w r pres nk fk post
    induction pres with
    | nil =>
        intro _ hfk
        simp [scanFiles, hfk]
    | cons pr prs ih =>
        intro hpre hfk
        obtain ⟨⟨pn, pf⟩, pls⟩ := pr
        obtain ⟨hok, hnone⟩ := hpre ((pn, pf), pls) (by simp)
        have hsc := scanLines_none r pls hnone
        have hrec := ih (fun x hx => hpre x (by simp [hx])) hfk
        simp [scanFiles, hok, hsc, hrec, List.append_assoc]
  · intro w body req r hreq hcomp hmat
    simp only [search, hreq, hcomp, hmat]

/-- C9, witness: scanning `f1` (no match) then `f3` (fetch raises) yields the
unclassified error having requested exactly `u1` and `u3`; the full search
over `wContentFail` ends unhandled. -/
theorem c9_content_failure_unclassified_witness :
    scanFiles wScan (RE.lit 'b') [("f1", ⟨"u1"⟩), ("f3", ⟨"u3"⟩)] =
        (.error (), (["u1", "u3"], ["x"])) ∧
      search wContentFail aliceB = .unhandled := by
  constructor
  · have h := c9_content_failure_unclassified.1 wScan (RE.lit 'b')
        [(("f1", ⟨"u1"⟩), ["x"])] "f3" ⟨"u3"⟩ [] (by decide) (by decide)
    simpa using h
  · exact c9_content_failure_unclassified.2 wContentFail aliceB
      ⟨"alice", "b"⟩ ((RE.lit 'b').seq RE.eps) rfl rfl rfl

/-- C10: the empty pattern compiles (to the empty regular expression, which
matches at position zero of every line), and then the matcher holds exactly
when some file's content yields at least one line — an empty line included —
and returns false when the paste has no files or every file's content yields
no lines (all content fetches assumed to succeed). -/
theorem c10_empty_pattern_semantics :
    ∀ (w : Remote) (g : GistApiResponseSchema) (r : RE),
      re_compile "" = some r →
      (∀ f ∈ g.files, ∃ ls, w.fileLines f.2.raw_url = .ok ls) →
      ((gist_matches w r g = .ok true ↔
          ∃ f ∈ g.files, ∃ ls,
            w.fileLines f.2.raw_url = .ok ls ∧ ls ≠ []) ∧
        (gist_matches w r g = .ok false ↔
          ¬ ∃ f ∈ g.files, ∃ ls,
            w.fileLines f.2.raw_url = .ok ls ∧ ls ≠ [])) := by
  intro w g r hr h
  have hre : r = RE.eps := by
    have he : re_compile "" = some RE.eps := rfl
    rw [he] at hr
    injection hr with h1
    exact h1.symm
  subst hre
  have ht := scanFiles_eps_true_iff w g.files h
  have hno := scanFiles_no_error w RE.eps g.files h
  refine ⟨ht, ?_, ?_⟩
  · intro hf hex
    have hq := ht.mpr hex
    rw [gist_matches] at hf
    rw [hf] at hq
    simp at hq
  · intro hnex
    rcases hno with htrue | hfalse
    · exact absurd (ht.mp htrue) hnex
    · exact hfalse

/-- C10, witness: the paste `gist1` with one file whose content is a single
empty line matches the compiled empty pattern. -/
theorem c10_empty_pattern_semantics_witness :
    gist_matches wEmptyLine RE.eps gist1 = Except.ok true :=
  (c10_empty_pattern_semantics wEmptyLine gist1 RE.eps rfl
      (fun f hf => by
        have hfe : f = ("f1", (⟨"u1"⟩ : GistApiFileResponseSchema)) := by
          simpa [gist1] using hf
        rw [hfe]
        exact ⟨[""], rfl⟩)).1.mpr
    ⟨("f1", ⟨"u1"⟩), by simp [gist1], [""], rfl, by simp⟩
